import Mathlib

/-!
Verification of the BATCAVE planner core: the reward calculator and task
update route (server/storage.ts, server/routes.ts, shared/schema.ts) and the
calendar lane allocator (client/src/components/calendar/week-view.tsx).

Modelling conventions:
* JS `number` values flowing through the reward formulas are modelled as
  exact rationals (`Rat`); every concrete value the claims mention is exactly
  representable, and `Math.round x` is modelled as `⌊x + 1/2⌋`.
* Timestamps are `Nat` (milliseconds are irrelevant to the server claims);
  the lane allocator uses `Int` milliseconds, matching `Date.getTime()`.
* The storage `Map<string, Task>` is modelled as a function `Nat → Option Task`.
* A JSON field that may be absent is an `Option`; a field that may be absent
  or `null` is an `Option (Option _)`.
-/

namespace Batcave

/-- JS `Math.round`: round half toward positive infinity. -/
def jsRound (q : Rat) : Int := ⌊q + 1/2⌋

/-- Evaluation rule for `jsRound` at concrete values. -/
theorem jsRound_eq (q : Rat) (n : Int) (h1 : (n : Rat) ≤ q + 1/2) (h2 : q + 1/2 < n + 1) :
    jsRound q = n := by
  rw [jsRound, Int.floor_eq_iff]
  exact ⟨h1, h2⟩

/-- The OWN properties of the `basePriorityMultipliers` object literal in
`MemStorage.calculateXPReward` (storage.ts): `none` for a key that is not
an own key of the literal. The full JS property access also consults the
prototype chain — that is `jsGet` below. -/
def basePriorityMultipliers (priority : String) : Option Rat :=
  if priority = "low" then some 10
  else if priority = "medium" then some 15
  else if priority = "high" then some 25
  else if priority = "urgent" then some 40
  else none

/-- `MemStorage.calculateXPReward` (storage.ts) on a priority that does not
hit the prototype chain: `baseXP = table[priority] || 15` (an own-key hit
yields its nonzero, hence truthy, number; a genuine miss yields `undefined`
and falls back to 15), then `Math.round(baseXP * hours)`. The fully
faithful version including `Object.prototype` keys is
`calculateXPRewardJS`; `calculateXPRewardJS_eq` proves they agree away from
the prototype keys, and every stored priority this model applies it to is
exercised away from them. -/
def calculateXPReward (priority : String) (hours : Rat) : Int :=
  let baseXP := (basePriorityMultipliers priority).getD 15
  jsRound (baseXP * hours)

/-- The OWN properties of the `domainMultipliers` object literal in
`MemStorage.calculateEUReward` (storage.ts); the prototype chain is handled
by `jsGet`. -/
def domainMultipliers (domain : String) : Option Rat :=
  if domain = "academic" then some 1
  else if domain = "fitness" then some 2.5
  else if domain = "creative" then some 0.8
  else if domain = "social" then some 1.2
  else if domain = "maintenance" then some 0.6
  else none

/-- `MemStorage.calculateEUReward` (storage.ts) on a domain that does not
hit the prototype chain: `multiplier = table[domain] || 1.0`, then
`Math.round((hours * multiplier) * 10)`. The fully faithful version is
`calculateEURewardJS` (they agree away from the `Object.prototype` keys by
`calculateEURewardJS_eq`). -/
def calculateEUReward (domain : String) (hours : Rat) : Int :=
  let multiplier := (domainMultipliers domain).getD 1
  jsRound (hours * multiplier * 10)

/-! ### The JS property lookup, prototype chain included

`basePriorityMultipliers[priority]` and `domainMultipliers[domain]` are
property accesses on plain object literals, so a key that is not an own key
is still looked up on `Object.prototype`. For such a key the inherited
value is a function (or, for `__proto__`, an object) — truthy, so the
`|| default` fallback never fires, and multiplying it by a number gives
`NaN`, which `Math.round` keeps as `NaN`. -/

/-- The property names an empty object literal inherits from
`Object.prototype` (its own property names plus the `__proto__` accessor);
each of their values is truthy and non-numeric. -/
def objectPrototypeKeys : List String :=
  ["constructor", "hasOwnProperty", "isPrototypeOf", "propertyIsEnumerable",
   "toLocaleString", "toString", "valueOf", "__defineGetter__",
   "__defineSetter__", "__lookupGetter__", "__lookupSetter__", "__proto__"]

/-- A JS value as the reward formulas observe it: a number, a truthy
non-numeric value (an inherited function/object, whose `ToNumber` is NaN),
or `undefined`. -/
inductive JSVal where
  | num (q : Rat)
  | truthyNonNum
  | undefinedVal
deriving DecidableEq

/-- `table[key]` on an object literal with own entries `own`: an own key
yields its number, a key of `Object.prototype` yields the inherited truthy
non-number, anything else yields `undefined`. -/
def jsGet (own : String → Option Rat) (key : String) : JSVal :=
  match own key with
  | some q => .num q
  | none => if key ∈ objectPrototypeKeys then .truthyNonNum else .undefinedVal

/-- `v || d`: `undefined` and the number 0 are falsy and fall back to `d`;
any other number and any object/function is kept. -/
def jsOrDefault (v : JSVal) (d : Rat) : JSVal :=
  match v with
  | .num q => if q = 0 then .num d else .num q
  | .truthyNonNum => .truthyNonNum
  | .undefinedVal => .num d

/-- `MemStorage.calculateXPReward` with the JS lookup semantics made
explicit: `Math.round(baseXP * hours)` is a number unless `baseXP` is a
truthy non-number, in which case the product and its rounding are `NaN`
(modelled as `none`). -/
def calculateXPRewardJS (priority : String) (hours : Rat) : Option Int :=
  match jsOrDefault (jsGet basePriorityMultipliers priority) 15 with
  | .num baseXP => some (jsRound (baseXP * hours))
  | _ => none

/-- `MemStorage.calculateEUReward` with the JS lookup semantics made
explicit (`Math.round((hours * multiplier) * 10)`, NaN as `none`). -/
def calculateEURewardJS (domain : String) (hours : Rat) : Option Int :=
  match jsOrDefault (jsGet domainMultipliers domain) 1 with
  | .num multiplier => some (jsRound (hours * multiplier * 10))
  | _ => none

/-- The persisted `Task` row (shared/schema.ts `tasks` table).
`estimatedHours`/`actualHours` are stored as decimal strings and
`parseFloat`-ed before use; both directions are the identity on the exact
rational value, so they are modelled as `Rat`. -/
structure Task where
  id : Nat
  userId : Nat
  title : String
  description : Option String
  domain : String
  priority : String
  estimatedHours : Rat
  actualHours : Option Rat
  xpReward : Int
  euReward : Int
  isCompleted : Bool
  completedAt : Option Nat
  dueDate : Option Nat
  createdAt : Nat
  updatedAt : Nat
deriving DecidableEq

/-- `UpdateTask = z.infer<typeof updateTaskSchema>` (shared/schema.ts):
`createInsertSchema(tasks).omit({id, userId, xpReward, euReward, createdAt,
updatedAt}).partial()` — every remaining column as an optional field, and in
particular no reward fields. `none` means the key is absent from the patch. -/
structure UpdateTask where
  title : Option String := none
  description : Option (Option String) := none
  domain : Option String := none
  priority : Option String := none
  estimatedHours : Option Rat := none
  actualHours : Option Rat := none
  isCompleted : Option Bool := none
  completedAt : Option Nat := none
  dueDate : Option Nat := none
deriving DecidableEq

/-- `InsertTask = z.infer<typeof insertTaskSchema>` (shared/schema.ts):
`createInsertSchema(tasks).omit({id, xpReward, euReward, isCompleted,
completedAt, createdAt, updatedAt})` — no reward or completion fields exist
on the insert payload at all. -/
structure InsertTask where
  userId : Nat
  title : String
  description : Option String := none
  domain : String
  priority : Option String := none
  estimatedHours : Option Rat := none
  actualHours : Option Rat := none
  dueDate : Option Nat := none
deriving DecidableEq

/-- A raw client PATCH body restricted to the columns of the `tasks` table:
what a (possibly hostile) caller may put in the JSON, including reward
fields. -/
structure RawUpdateBody where
  title : Option String := none
  description : Option (Option String) := none
  domain : Option String := none
  priority : Option String := none
  estimatedHours : Option Rat := none
  actualHours : Option Rat := none
  isCompleted : Option Bool := none
  completedAt : Option Nat := none
  dueDate : Option Nat := none
  xpReward : Option Int := none
  euReward : Option Int := none
deriving DecidableEq

/-- `updateTaskSchema.parse` (shared/schema.ts): keeps the optional task
columns and drops the omitted keys — in particular `xpReward` and
`euReward` never survive parsing. -/
def parseUpdateTaskSchema (b : RawUpdateBody) : UpdateTask :=
  { title := b.title
    description := b.description
    domain := b.domain
    priority := b.priority
    estimatedHours := b.estimatedHours
    actualHours := b.actualHours
    isCompleted := b.isCompleted
    completedAt := b.completedAt
    dueDate := b.dueDate }

/-- `MemStorage.createTask` (storage.ts): spreads the insert payload, then
overrides `description ?? null`, `priority ?? "medium"`,
`estimatedHours ?? "1.0"`, `actualHours: null`, `dueDate ?? null`, and
forces `xpReward: 0, euReward: 0, isCompleted: false, completedAt: null`,
`createdAt/updatedAt = now`. `id` is the fresh `randomUUID()`. -/
def MemStorage.createTask (insertTask : InsertTask) (id now : Nat) : Task :=
  { id := id
    userId := insertTask.userId
    title := insertTask.title
    description := insertTask.description
    domain := insertTask.domain
    priority := insertTask.priority.getD "medium"
    estimatedHours := insertTask.estimatedHours.getD 1
    actualHours := none
    dueDate := insertTask.dueDate
    xpReward := 0
    euReward := 0
    isCompleted := false
    completedAt := none
    createdAt := now
    updatedAt := now }

/-- `MemStorage.updateTask` (storage.ts) applied to a found task:
if `updateData.isCompleted && !existingTask.isCompleted` then
`actualHours = updateData.actualHours || existingTask.estimatedHours`
(`actualHours`, when present, is a validated value in [0.1, 100] rendered as
a nonempty string, hence truthy, so `||` is `Option.getD`), compute the two
rewards from the existing task's priority/domain, and the spread
`{...existingTask, ...updateData, ...calculatedRewards, updatedAt: now}`
overrides field by field (a key absent from `updateData` keeps the existing
value). -/
def MemStorage.updateTask (existingTask : Task) (updateData : UpdateTask) (now : Nat) : Task :=
  let doReward := updateData.isCompleted.getD false && !existingTask.isCompleted
  let hoursUsed := updateData.actualHours.getD existingTask.estimatedHours
  { id := existingTask.id
    userId := existingTask.userId
    title := updateData.title.getD existingTask.title
    description := updateData.description.getD existingTask.description
    domain := updateData.domain.getD existingTask.domain
    priority := updateData.priority.getD existingTask.priority
    estimatedHours := updateData.estimatedHours.getD existingTask.estimatedHours
    actualHours :=
      if doReward then some hoursUsed
      else (updateData.actualHours.map some).getD existingTask.actualHours
    xpReward :=
      if doReward then calculateXPReward existingTask.priority hoursUsed
      else existingTask.xpReward
    euReward :=
      if doReward then calculateEUReward existingTask.domain hoursUsed
      else existingTask.euReward
    isCompleted := updateData.isCompleted.getD existingTask.isCompleted
    completedAt := (updateData.completedAt.map some).getD existingTask.completedAt
    dueDate := (updateData.dueDate.map some).getD existingTask.dueDate
    createdAt := existingTask.createdAt
    updatedAt := now }

/-- `ClientUpdateTask = z.infer<typeof clientUpdateTaskSchema>`
(shared/schema.ts): the PATCH body after validation — the partial update
fields minus `completedAt` (server-controlled) and minus the reward fields. -/
structure ClientUpdate where
  title : Option String := none
  description : Option (Option String) := none
  domain : Option String := none
  priority : Option String := none
  estimatedHours : Option Rat := none
  actualHours : Option Rat := none
  isCompleted : Option Bool := none
  dueDate : Option Nat := none
deriving DecidableEq

/-- The `PATCH /api/tasks/:id` handler in `registerRoutes` (routes.ts),
given the session user, the validated body and the current instant.
Returns the HTTP status and the storage map after the request:
404 when the task is missing or owned by someone else; 400 (the
"reward integrity" rejection) when the body carries `isCompleted: false`
against an already-completed task; otherwise the route builds the server
update (`completedAt = now` exactly when the body's `isCompleted` is
truthy, i.e. `some true`) and persists `MemStorage.updateTask`. -/
def patchTaskRoute (store : Nat → Option Task) (taskId userId : Nat)
    (u : ClientUpdate) (now : Nat) : Nat × (Nat → Option Task) :=
  match store taskId with
  | none => (404, store)
  | some existingTask =>
    if existingTask.userId ≠ userId then (404, store)
    else if u.isCompleted = some false ∧ existingTask.isCompleted then (400, store)
    else
      let updateData : UpdateTask :=
        { title := u.title
          description := u.description
          domain := u.domain
          priority := u.priority
          estimatedHours := u.estimatedHours
          actualHours := u.actualHours
          isCompleted := u.isCompleted
          completedAt := if u.isCompleted = some true then some now else none
          dueDate := u.dueDate }
      let updatedTask := MemStorage.updateTask existingTask updateData now
      (200, fun j => if j = taskId then some updatedTask else store j)

/-! ### Example fixtures for the server claims -/

/-- A completed example task (priority high, domain fitness, 2 estimated hours). -/
def exDoneTask : Task :=
  { id := 1, userId := 7, title := "train", description := none, domain := "fitness",
    priority := "high", estimatedHours := 2, actualHours := some 2, xpReward := 50,
    euReward := 50, isCompleted := true, completedAt := some 10, dueDate := none,
    createdAt := 5, updatedAt := 10 }

/-- An incomplete example task with no actual hours recorded yet. -/
def exOpenTask : Task :=
  { exDoneTask with
    id := 2
    isCompleted := false
    completedAt := none
    actualHours := none
    xpReward := 0
    euReward := 0 }

/-- An example in-memory store holding the two fixtures. -/
def exStore : Nat → Option Task :=
  fun j => if j = 1 then some exDoneTask else if j = 2 then some exOpenTask else none

/-- A PATCH body that tries to un-complete a task. -/
def exUncompleteReq : ClientUpdate := { isCompleted := some false }

/-- A PATCH body that (re-)completes a task without supplying actual hours. -/
def exCompleteReq : ClientUpdate := { isCompleted := some true }

/-! ### Claims C4 – C9 -/

/-- C4: for every task whose stored `isCompleted` is true, a PATCH request
carrying `isCompleted: false` is rejected with HTTP 400 and the store is
returned unchanged. -/
theorem patch_rejects_uncomplete (store : Nat → Option Task) (taskId userId : Nat)
    (u : ClientUpdate) (now : Nat) (t : Task)
    (hfind : store taskId = some t) (howner : t.userId = userId)
    (hdone : t.isCompleted = true) (hreq : u.isCompleted = some false) :
    patchTaskRoute store taskId userId u now = (400, store) := by
  simp [patchTaskRoute, hfind, howner, hdone, hreq]

/-- Witness for C4 at a concrete completed task and un-completion body. -/
theorem patch_rejects_uncomplete_witness :
    exStore 1 = some exDoneTask ∧ exDoneTask.userId = 7 ∧
      exDoneTask.isCompleted = true ∧ exUncompleteReq.isCompleted = some false ∧
      patchTaskRoute exStore 1 7 exUncompleteReq 99 = (400, exStore) :=
  ⟨rfl, rfl, rfl, rfl,
    patch_rejects_uncomplete exStore 1 7 exUncompleteReq 99 exDoneTask rfl rfl rfl rfl⟩

/-- C5: a PATCH request carrying `isCompleted: true` against an
already-completed task succeeds (HTTP 200) and the persisted task keeps the
stored `xpReward` and `euReward` unchanged — the reward branch of
`MemStorage.updateTask` is skipped. -/
theorem patch_double_complete_idempotent (store : Nat → Option Task)
    (taskId userId : Nat) (u : ClientUpdate) (now : Nat) (t : Task)
    (hfind : store taskId = some t) (howner : t.userId = userId)
    (hdone : t.isCompleted = true) (hreq : u.isCompleted = some true) :
    ∃ t', patchTaskRoute store taskId userId u now =
        (200, fun j => if j = taskId then some t' else store j) ∧
      t'.xpReward = t.xpReward ∧ t'.euReward = t.euReward := by
  refine ⟨MemStorage.updateTask t
    { title := u.title, description := u.description, domain := u.domain,
      priority := u.priority, estimatedHours := u.estimatedHours,
      actualHours := u.actualHours, isCompleted := u.isCompleted,
      completedAt := if u.isCompleted = some true then some now else none,
      dueDate := u.dueDate } now, ?_, ?_, ?_⟩
  · simp [patchTaskRoute, hfind, howner, hdone, hreq]
  · simp [MemStorage.updateTask, hdone]
  · simp [MemStorage.updateTask, hdone]

/-- Witness for C5: re-completing the completed fixture task. -/
theorem patch_double_complete_idempotent_witness :
    exStore 1 = some exDoneTask ∧ exDoneTask.userId = 7 ∧
      exDoneTask.isCompleted = true ∧ exCompleteReq.isCompleted = some true ∧
      ∃ t', patchTaskRoute exStore 1 7 exCompleteReq 99 =
          (200, fun j => if j = 1 then some t' else exStore j) ∧
        t'.xpReward = exDoneTask.xpReward ∧ t'.euReward = exDoneTask.euReward :=
  ⟨rfl, rfl, rfl, rfl,
    patch_double_complete_idempotent exStore 1 7 exCompleteReq 99 exDoneTask rfl rfl rfl rfl⟩

/-- C6: the reward calculation is a pure function of (priority, domain,
hours); with the default tables, priority "high" and 2 hours give
`xp = round(25*2) = 50` and domain "fitness" and 2 hours give
`eu = round(2*2.5*10) = 50`, and identical inputs always give identical
outputs. -/
theorem reward_determinism :
    calculateXPReward "high" 2 = 50 ∧ calculateEUReward "fitness" 2 = 50 ∧
    ∀ (p d : String) (h : Rat),
      calculateXPReward p h = calculateXPReward p h ∧
      calculateEUReward d h = calculateEUReward d h := by
  refine ⟨?_, ?_, fun p d h => ⟨rfl, rfl⟩⟩
  · have h : calculateXPReward "high" 2 = jsRound (25 * 2) := by
      simp [calculateXPReward, basePriorityMultipliers]
    rw [h]
    exact jsRound_eq _ 50 (by norm_num) (by norm_num)
  · have h : calculateEUReward "fitness" 2 = jsRound (2 * 2.5 * 10) := by
      simp [calculateEUReward, domainMultipliers]
    rw [h]
    exact jsRound_eq _ 50 (by norm_num) (by norm_num)

/-- C7: completing an incomplete task without supplying `actualHours`
computes both rewards from the stored `estimatedHours` and writes that
value back as the task's `actualHours`. -/
theorem patch_complete_defaults_hours (store : Nat → Option Task)
    (taskId userId : Nat) (u : ClientUpdate) (now : Nat) (t : Task)
    (hfind : store taskId = some t) (howner : t.userId = userId)
    (hnc : t.isCompleted = false) (hc : u.isCompleted = some true)
    (hah : u.actualHours = none) :
    ∃ t', patchTaskRoute store taskId userId u now =
        (200, fun j => if j = taskId then some t' else store j) ∧
      t'.xpReward = calculateXPReward t.priority t.estimatedHours ∧
      t'.euReward = calculateEUReward t.domain t.estimatedHours ∧
      t'.actualHours = some t.estimatedHours := by
  refine ⟨MemStorage.updateTask t
    { title := u.title, description := u.description, domain := u.domain,
      priority := u.priority, estimatedHours := u.estimatedHours,
      actualHours := u.actualHours, isCompleted := u.isCompleted,
      completedAt := if u.isCompleted = some true then some now else none,
      dueDate := u.dueDate } now, ?_, ?_, ?_, ?_⟩
  · simp [patchTaskRoute, hfind, howner, hnc, hc]
  · simp [MemStorage.updateTask, hnc, hc, hah]
  · simp [MemStorage.updateTask, hnc, hc, hah]
  · simp [MemStorage.updateTask, hnc, hc, hah]

/-- Witness for C7: completing the incomplete fixture task with no
`actualHours` in the body. -/
theorem patch_complete_defaults_hours_witness :
    exStore 2 = some exOpenTask ∧ exOpenTask.userId = 7 ∧
      exOpenTask.isCompleted = false ∧ exCompleteReq.isCompleted = some true ∧
      exCompleteReq.actualHours = none ∧
      ∃ t', patchTaskRoute exStore 2 7 exCompleteReq 99 =
          (200, fun j => if j = 2 then some t' else exStore j) ∧
        t'.xpReward = calculateXPReward exOpenTask.priority exOpenTask.estimatedHours ∧
        t'.euReward = calculateEUReward exOpenTask.domain exOpenTask.estimatedHours ∧
        t'.actualHours = some exOpenTask.estimatedHours :=
  ⟨rfl, rfl, rfl, rfl, rfl,
    patch_complete_defaults_hours exStore 2 7 exCompleteReq 99 exOpenTask rfl rfl rfl rfl rfl⟩

/-- An own-key hit of the priority table is one of 10, 15, 25, 40, never
the falsy number 0. -/
theorem basePriorityMultipliers_ne_zero {p : String} {q : Rat}
    (h : basePriorityMultipliers p = some q) : ¬ q = 0 := by
  unfold basePriorityMultipliers at h
  split at h <;> [skip; split at h] <;> [skip; skip; split at h] <;>
    [skip; skip; skip; split at h] <;>
    first
      | (cases h; norm_num)
      | exact absurd h (by simp)

/-- An own-key hit of the domain table is one of 1, 2.5, 0.8, 1.2, 0.6,
never the falsy number 0. -/
theorem domainMultipliers_ne_zero {d : String} {q : Rat}
    (h : domainMultipliers d = some q) : ¬ q = 0 := by
  unfold domainMultipliers at h
  split at h <;> [skip; split at h] <;> [skip; skip; split at h] <;>
    [skip; skip; skip; split at h] <;> [skip; skip; skip; skip; split at h] <;>
    first
      | (cases h; norm_num)
      | exact absurd h (by simp)

/-- Away from the `Object.prototype` property names, the full JS lookup
semantics and the plain `getD`-style model of `calculateXPReward` agree. -/
theorem calculateXPRewardJS_eq (p : String) (h : Rat)
    (hp : p ∉ objectPrototypeKeys) :
    calculateXPRewardJS p h = some (calculateXPReward p h) := by
  unfold calculateXPRewardJS calculateXPReward jsGet jsOrDefault
  rcases hb : basePriorityMultipliers p with - | q
  · simp [hb, hp]
  · have hq := basePriorityMultipliers_ne_zero hb
    simp [hb, hq]

/-- Away from the `Object.prototype` property names, the full JS lookup
semantics and the plain `getD`-style model of `calculateEUReward` agree. -/
theorem calculateEURewardJS_eq (d : String) (h : Rat)
    (hd : d ∉ objectPrototypeKeys) :
    calculateEURewardJS d h = some (calculateEUReward d h) := by
  unfold calculateEURewardJS calculateEUReward jsGet jsOrDefault
  rcases hb : domainMultipliers d with - | q
  · simp [hb, hd]
  · have hq := domainMultipliers_ne_zero hb
    simp [hb, hq]

/-- C8 counterexample: "toString" is outside {low, medium, high, urgent}
and "valueOf" outside the domain set, yet neither formula falls back to its
default — `table[key]` finds the truthy inherited `Object.prototype`
member, `|| default` keeps it, and the result is `NaN` (`none`), not
`round(15*hours)` / `round(hours*1*10)`. -/
theorem unknown_enum_defaults_counterexample :
    "toString" ∉ ["low", "medium", "high", "urgent"] ∧
    "valueOf" ∉ ["academic", "fitness", "creative", "social", "maintenance"] ∧
    calculateXPRewardJS "toString" 3 = none ∧
    calculateXPRewardJS "toString" 3 ≠ some (jsRound (15 * 3)) ∧
    calculateEURewardJS "valueOf" 3 = none ∧
    calculateEURewardJS "valueOf" 3 ≠ some (jsRound (3 * 1 * 10)) := by
  refine ⟨by decide, by decide, rfl, by decide, rfl, by decide⟩

/-- C8 amended: for every hours value, a priority string outside
{low, medium, high, urgent} makes the XP formula use base 15 — and a
domain outside {academic, fitness, creative, social, maintenance} makes
the EU formula use multiplier 1.0 — exactly when the string is not a
property name inherited from `Object.prototype`; for the inherited names
(`toString`, `valueOf`, `constructor`, `hasOwnProperty`, ...) the truthy
inherited value defeats the `||` fallback and the formula yields `NaN`
instead of a number. -/
theorem unknown_enum_defaults_amended (p d : String) (h : Rat)
    (hp : p ∉ ["low", "medium", "high", "urgent"])
    (hd : d ∉ ["academic", "fitness", "creative", "social", "maintenance"]) :
    calculateXPRewardJS p h =
      (if p ∈ objectPrototypeKeys then none else some (jsRound (15 * h))) ∧
    calculateEURewardJS d h =
      (if d ∈ objectPrototypeKeys then none else some (jsRound (h * 1 * 10))) := by
  simp only [List.mem_cons, List.not_mem_nil, or_false, not_or] at hp hd
  obtain ⟨hp1, hp2, hp3, hp4⟩ := hp
  obtain ⟨hd1, hd2, hd3, hd4, hd5⟩ := hd
  constructor
  · by_cases hq : p ∈ objectPrototypeKeys <;>
      simp [calculateXPRewardJS, jsGet, jsOrDefault, basePriorityMultipliers,
        hp1, hp2, hp3, hp4, hq]
  · by_cases hq : d ∈ objectPrototypeKeys <;>
      simp [calculateEURewardJS, jsGet, jsOrDefault, domainMultipliers,
        hd1, hd2, hd3, hd4, hd5, hq]

/-- Witness for the amended C8 at the unknown non-prototype strings "epic"
and "gaming" (where the defaults do apply). -/
theorem unknown_enum_defaults_amended_witness :
    "epic" ∉ ["low", "medium", "high", "urgent"] ∧
    "gaming" ∉ ["academic", "fitness", "creative", "social", "maintenance"] ∧
    (calculateXPRewardJS "epic" 3 =
        (if "epic" ∈ objectPrototypeKeys then none else some (jsRound (15 * 3))) ∧
      calculateEURewardJS "gaming" 3 =
        (if "gaming" ∈ objectPrototypeKeys then none
         else some (jsRound (3 * 1 * 10)))) :=
  ⟨by decide, by decide,
    unknown_enum_defaults_amended "epic" "gaming" 3 (by decide) (by decide)⟩

/-- C9: `MemStorage.createTask` stores every new task with
`xpReward = 0`, `euReward = 0`, `isCompleted = false`, `completedAt = null`
and `actualHours = null` (the insert payload cannot even carry those
fields), and `updateTaskSchema` strips `xpReward`/`euReward` from any raw
client update body. -/
theorem rewards_server_controlled :
    (∀ (ins : InsertTask) (id now : Nat),
        (MemStorage.createTask ins id now).xpReward = 0 ∧
        (MemStorage.createTask ins id now).euReward = 0 ∧
        (MemStorage.createTask ins id now).isCompleted = false ∧
        (MemStorage.createTask ins id now).completedAt = none ∧
        (MemStorage.createTask ins id now).actualHours = none) ∧
    (∀ (b : RawUpdateBody) (x y : Int),
        parseUpdateTaskSchema { b with xpReward := some x, euReward := some y } =
          parseUpdateTaskSchema b) :=
  ⟨fun _ _ _ => ⟨rfl, rfl, rfl, rfl, rfl⟩, fun _ _ _ => rfl⟩

/-! ### Lane allocator (week-view.tsx / day-view `allocateLanes`)

Items carry `startTime`/optional `endTime` strings; the algorithm only ever
uses `new Date(x).getTime()`, so an item is modelled by its epoch
milliseconds (`Int`) plus an opaque payload id. -/

/-- The default duration (60 minutes in milliseconds) used when an item has
no explicit end: `itemStart + (60 * 60 * 1000)`. -/
def defaultDurationMs : Int := 60 * 60 * 1000

/-- Effective end of an interval: `endTime` when present, else
`start + 60 minutes`. -/
def endEff (start : Int) (stop : Option Int) : Int := stop.getD (start + defaultDurationMs)

/-- An input item of `allocateLanes`: `startTime`, optional `endTime`
(both as `getTime()` milliseconds) and the payload identity. -/
structure RawItem where
  id : Nat
  start : Int
  stop : Option Int
deriving DecidableEq

/-- An element of the `positioned` array: the item plus its `lane` and
`maxLanes` fields. -/
structure Placed where
  id : Nat
  start : Int
  stop : Option Int
  lane : Nat
  maxLanes : Nat
deriving DecidableEq

/-- The conflict test of `allocateLanes`:
`itemStart < existingEnd && itemEnd > existingStart`. -/
def conflictB (itemStart itemEnd : Int) (p : Placed) : Bool :=
  decide (itemStart < endEff p.start p.stop) && decide (itemEnd > p.start)

/-- The `while (usedLanes.includes(lane)) lane++` loop, with enough fuel to
pass every used lane (its result is characterised by `firstFree_spec`,
which pins down the loop's unique fixpoint). -/
def firstFreeAux (used : List Nat) : Nat → Nat → Nat
  | 0, lane => lane
  | fuel + 1, lane => if lane ∈ used then firstFreeAux used fuel (lane + 1) else lane

/-- The first lane index not in `used` (the value of the while loop started
at `lane = 0`). -/
def firstFree (used : List Nat) : Nat := firstFreeAux used (used.foldr max 0 + 2) 0

/-- `conflicts = positioned.filter(existing => overlap test)`. -/
def itemConflicts (positioned : List Placed) (item : RawItem) : List Placed :=
  positioned.filter (conflictB item.start (endEff item.start item.stop))

/-- `usedLanes = conflicts.map(c => c.lane); let lane = 0; while ...`. -/
def newLane (positioned : List Placed) (item : RawItem) : Nat :=
  firstFree ((itemConflicts positioned item).map (·.lane))

/-- `maxLanes = Math.max(lane + 1, ...conflicts.map(c => c.maxLanes))`. -/
def newMax (positioned : List Placed) (item : RawItem) : Nat :=
  ((itemConflicts positioned item).map (·.maxLanes)).foldl max (newLane positioned item + 1)

/-- The in-place `conflicts.forEach(conflict => conflict.maxLanes = maxLanes)`
mutation over the `positioned` array: the map rewriting exactly the entries
satisfying the conflict predicate. -/
def bumpConflicts (positioned : List Placed) (item : RawItem) : List Placed :=
  positioned.map fun p =>
    if conflictB item.start (endEff item.start item.stop) p
    then { p with maxLanes := newMax positioned item } else p

/-- The record pushed by `positioned.push({...item, lane, maxLanes})`. -/
def newPlaced (positioned : List Placed) (item : RawItem) : Placed :=
  { id := item.id, start := item.start, stop := item.stop,
    lane := newLane positioned item, maxLanes := newMax positioned item }

/-- One iteration of the `sortedItems.forEach` body: bump the `maxLanes` of
the direct conflicts, then push the new item with its computed
`lane`/`maxLanes`. -/
def placeItem (positioned : List Placed) (item : RawItem) : List Placed :=
  bumpConflicts positioned item ++ [newPlaced positioned item]

/-- `allocateLanes`: stable sort by `startTime` ascending (JS
`Array.prototype.sort` with comparator `getTime(a) - getTime(b)`), then the
forEach placement loop over an initially empty `positioned` array. -/
def allocateLanes (items : List RawItem) : List Placed :=
  (List.insertionSort (fun a b => a.start ≤ b.start) items).foldl placeItem []

/-- Interval overlap of two placed items, as the spec states it:
`a.start < b.end_effective AND b.start < a.end_effective`. -/
def overlapP (p q : Placed) : Prop :=
  p.start < endEff q.start q.stop ∧ q.start < endEff p.start p.stop

instance (p q : Placed) : Decidable (overlapP p q) :=
  inferInstanceAs (Decidable (_ ∧ _))

/-! ### Concrete clusters for C1: A(0–60 min), B(30–90), C(80–140), and the
same plus D(85–95), in epoch milliseconds. -/

/-- A(0–60), B(30–90), C(80–140): one transitively merged overlap cluster
(A∩B and B∩C overlap, A and C are disjoint). -/
def exC1 : List RawItem :=
  [ { id := 0, start := 0, stop := some 3600000 },
    { id := 1, start := 1800000, stop := some 5400000 },
    { id := 2, start := 4800000, stop := some 8400000 } ]

/-- The same cluster plus D(85–95), which overlaps B and C but not A. -/
def exC1D : List RawItem :=
  exC1 ++ [{ id := 3, start := 5100000, stop := some 5700000 }]

/-- C1 counterexample: on A(0–60), B(30–90), C(80–140) the allocator
reports `maxLanes = 2` for all three items, not `3`; and the `maxLanes`
update does not propagate through the transitive cluster: adding D(85–95)
(which overlaps B and C but not A) leaves A at `maxLanes = 2` while B, C, D
get `3`. -/
theorem cluster_laneCount_counterexample :
    ((allocateLanes exC1).map (fun p => p.maxLanes) = [2, 2, 2] ∧
      ¬ (allocateLanes exC1).map (fun p => p.maxLanes) = [3, 3, 3]) ∧
    (allocateLanes exC1D).map (fun p => p.maxLanes) = [2, 3, 3, 3] := by
  decide

/-- C1 amended: on A(0–60), B(30–90), C(80–140) all three items carry the
same `maxLanes` and its value is `2` (the lanes used are A=0, B=1, C=0);
after placing a new item, `laneCount = max(existing laneCount of the direct
conflicts, newLane+1)` is written only to the new item and its direct
overlap conflicts, so a merely transitively connected item can keep a
smaller `maxLanes` (A stays at 2 when D(85–95) pushes B, C, D to 3). -/
theorem cluster_laneCount_amended :
    (allocateLanes exC1).map (fun p => p.maxLanes) = [2, 2, 2] ∧
    (allocateLanes exC1).map (fun p => p.lane) = [0, 1, 0] ∧
    (allocateLanes exC1D).map (fun p => (p.lane, p.maxLanes)) =
      [(0, 2), (1, 3), (0, 3), (2, 3)] := by
  decide

/-! ### The while loop returns the least free lane -/

theorem le_foldr_max (used : List Nat) : ∀ x ∈ used, x ≤ used.foldr max 0 := by
  induction used with
  | nil => simp
  | cons a l ih =>
    intro x hx
    rcases List.mem_cons.mp hx with h | h
    · subst h; exact le_max_left _ _
    · exact le_trans (ih x h) (le_max_right _ _)

theorem firstFreeAux_spec (used : List Nat) :
    ∀ fuel lane : Nat, (∃ j, lane ≤ j ∧ j < lane + fuel ∧ j ∉ used) →
      firstFreeAux used fuel lane ∉ used ∧ lane ≤ firstFreeAux used fuel lane ∧
        ∀ k, lane ≤ k → k < firstFreeAux used fuel lane → k ∈ used := by
  intro fuel
  induction fuel with
  | zero =>
    rintro lane ⟨j, hj1, hj2, -⟩
    omega
  | succ n ih =>
    rintro lane ⟨j, hj1, hj2, hj3⟩
    simp only [firstFreeAux]
    by_cases h : lane ∈ used
    · rw [if_pos h]
      have hne : j ≠ lane := fun e => hj3 (e ▸ h)
      obtain ⟨h1, h2, h3⟩ := ih (lane + 1) ⟨j, by omega, by omega, hj3⟩
      refine ⟨h1, by omega, fun k hk1 hk2 => ?_⟩
      rcases Nat.eq_or_lt_of_le hk1 with e | lt
      · exact e ▸ h
      · exact h3 k lt hk2
    · rw [if_neg h]
      exact ⟨h, le_refl _, fun k hk1 hk2 => absurd hk2 (by omega)⟩

/-- The value of the `while (usedLanes.includes(lane)) lane++` loop: the
smallest natural number not in `used`. -/
theorem firstFree_spec (used : List Nat) :
    firstFree used ∉ used ∧ ∀ k < firstFree used, k ∈ used := by
  have hfree : used.foldr max 0 + 1 ∉ used := fun h => by
    have := le_foldr_max used _ h
    omega
  unfold firstFree
  obtain ⟨h1, -, h3⟩ := firstFreeAux_spec used (used.foldr max 0 + 2) 0
    ⟨used.foldr max 0 + 1, by omega, by omega, hfree⟩
  exact ⟨h1, fun k hk => h3 k (Nat.zero_le k) hk⟩

/-! ### The lane-relevant projection of a placed item -/

/-- The fields of a placed item that later placements never touch: the
in-place `maxLanes` mutation changes nothing that the conflict test or the
lane assignment reads. -/
def sig (p : Placed) : Int × Option Int × Nat := (p.start, p.stop, p.lane)

theorem sig_fields {p q : Placed} (h : sig p = sig q) :
    p.start = q.start ∧ p.stop = q.stop ∧ p.lane = q.lane := by
  rcases p with ⟨_, _, _, _, _⟩
  rcases q with ⟨_, _, _, _, _⟩
  simpa [sig, Prod.ext_iff] using h

theorem overlapP_congr {p p' q q' : Placed} (hp : sig p' = sig p) (hq : sig q' = sig q) :
    overlapP p' q' ↔ overlapP p q := by
  obtain ⟨a1, a2, -⟩ := sig_fields hp
  obtain ⟨b1, b2, -⟩ := sig_fields hq
  rw [overlapP, overlapP, a1, a2, b1, b2]

/-- Lanes of the already-placed items of `m` that overlap `p`. -/
def lanesOf (m : List Placed) (p : Placed) : List Nat :=
  (m.filter fun q => decide (overlapP q p)).map (·.lane)

theorem lanesOf_congr : ∀ {m m' : List Placed} {p p' : Placed},
    m'.map sig = m.map sig → sig p' = sig p → lanesOf m' p' = lanesOf m p := by
  intro m
  induction m with
  | nil =>
    intro m' p p' hm _
    cases m' with
    | nil => rfl
    | cons b l' => simp at hm
  | cons a l ih =>
    intro m' p p' hm hp
    cases m' with
    | nil => simp at hm
    | cons b l' =>
      simp only [List.map_cons, List.cons.injEq] at hm
      obtain ⟨hb, hl⟩ := hm
      have hov : decide (overlapP b p') = decide (overlapP a p) :=
        decide_eq_decide.mpr (overlapP_congr hb hp)
      have hlane : b.lane = a.lane := (sig_fields hb).2.2
      by_cases hc : overlapP a p
      · simp [lanesOf, List.filter_cons, hov, hc, hlane]
        exact ih hl hp
      · simp [lanesOf, List.filter_cons, hov, hc]
        exact ih hl hp

/-! ### First-fit invariant of the placement loop -/

/-- `l` is a first-fit layout: for every decomposition of the output array
into already-placed items `pfx`, an item `p` and later items, `p.lane`
avoids every lane of an overlapping item of `pfx` and every smaller lane is
so used. -/
def FirstFit (l : List Placed) : Prop :=
  ∀ pfx p rest, l = pfx ++ p :: rest →
    p.lane ∉ lanesOf pfx p ∧ ∀ k < p.lane, k ∈ lanesOf pfx p

theorem sig_update (item : RawItem) (m : Nat) (r : Placed) :
    sig (if conflictB item.start (endEff item.start item.stop) r
        then { r with maxLanes := m } else r) = sig r := by
  split <;> rfl

theorem bump_map_sig (pos : List Placed) (item : RawItem) :
    (bumpConflicts pos item).map sig = pos.map sig := by
  unfold bumpConflicts
  rw [List.map_map]
  exact List.map_congr_left fun r _ => sig_update item (newMax pos item) r

theorem bumpConflicts_length (pos : List Placed) (item : RawItem) :
    (bumpConflicts pos item).length = pos.length := by
  simp [bumpConflicts]

/-- The conflict filter of `placeItem` sees exactly the overlap relation of
the eventual placed item. -/
theorem overlap_decide_eq_conflict (item : RawItem) (p q : Placed)
    (h1 : p.start = item.start) (h2 : p.stop = item.stop) :
    decide (overlapP q p) = conflictB item.start (endEff item.start item.stop) q := by
  simp only [overlapP, conflictB, h1, h2, Bool.decide_and, gt_iff_lt]
  exact Bool.and_comm _ _

theorem lanesOf_eq_usedLanes (pos : List Placed) (item : RawItem) (p : Placed)
    (h1 : p.start = item.start) (h2 : p.stop = item.stop) :
    lanesOf pos p = (itemConflicts pos item).map (·.lane) := by
  unfold lanesOf itemConflicts
  exact congrArg _ (List.filter_congr fun q _ => overlap_decide_eq_conflict item p q h1 h2)

theorem mem_lanesOf {k : Nat} {m : List Placed} {p : Placed} :
    k ∈ lanesOf m p ↔ ∃ q ∈ m, overlapP q p ∧ q.lane = k := by
  unfold lanesOf
  rw [List.mem_map]
  constructor
  · rintro ⟨q, hq, rfl⟩
    rw [List.mem_filter] at hq
    exact ⟨q, hq.1, of_decide_eq_true hq.2, rfl⟩
  · rintro ⟨q, hq, hov, rfl⟩
    exact ⟨q, List.mem_filter.mpr ⟨hq, decide_eq_true hov⟩, rfl⟩

theorem FirstFit_placeItem (pos : List Placed) (item : RawItem) (h : FirstFit pos) :
    FirstFit (placeItem pos item) := by
  intro pfx p rest hdec
  rw [placeItem] at hdec
  rcases List.eq_nil_or_concat rest with rfl | ⟨rest', last, rfl⟩
  · have hlen : (bumpConflicts pos item).length = pfx.length := by
      have hc := congrArg List.length hdec
      simp only [List.length_append, List.length_cons, List.length_nil] at hc
      omega
    obtain ⟨hupd, hnew⟩ := List.append_inj hdec hlen
    have hp : p = newPlaced pos item := by
      injection hnew with h1 h2
      exact h1.symm
    have hsl : pfx.map sig = pos.map sig := by
      rw [← hupd]
      exact bump_map_sig pos item
    have hlanes : lanesOf pfx p = (itemConflicts pos item).map (·.lane) := by
      rw [lanesOf_congr hsl rfl]
      exact lanesOf_eq_usedLanes pos item p (by rw [hp]; rfl) (by rw [hp]; rfl)
    rw [hlanes, hp]
    exact firstFree_spec _
  · have hdec' : bumpConflicts pos item ++ [newPlaced pos item] =
        (pfx ++ p :: rest') ++ [last] := by
      simpa [List.concat_eq_append, List.append_assoc, List.cons_append] using hdec
    have hlen : (bumpConflicts pos item).length = (pfx ++ p :: rest').length := by
      have hc := congrArg List.length hdec'
      simp only [List.length_append, List.length_cons, List.length_nil] at hc ⊢
      omega
    obtain ⟨hupd, -⟩ := List.append_inj hdec' hlen
    rw [bumpConflicts] at hupd
    obtain ⟨l₁, l₂, hpos, hm1, hm2⟩ := List.map_eq_append_iff.mp hupd
    obtain ⟨q, l₂', hl₂, hfq, -⟩ := List.map_eq_cons_iff.mp hm2
    subst hl₂
    obtain ⟨hq1, hq2⟩ := h l₁ q l₂' hpos
    have hsq : sig p = sig q := by
      rw [← hfq]
      exact sig_update item (newMax pos item) q
    have hsl : pfx.map sig = l₁.map sig := by
      rw [← hm1, List.map_map]
      exact List.map_congr_left fun r _ => sig_update item (newMax pos item) r
    have hlanes : lanesOf pfx p = lanesOf l₁ q := lanesOf_congr hsl hsq
    have hplane : p.lane = q.lane := (sig_fields hsq).2.2
    rw [hlanes, hplane]
    exact ⟨hq1, hq2⟩

theorem FirstFit_foldl (items : List RawItem) :
    ∀ pos : List Placed, FirstFit pos → FirstFit (items.foldl placeItem pos) := by
  induction items with
  | nil => intro pos h; exact h
  | cons a l ih =>
    intro pos h
    exact ih _ (FirstFit_placeItem pos a h)

theorem FirstFit_allocateLanes (items : List RawItem) :
    FirstFit (allocateLanes items) := by
  apply FirstFit_foldl
  intro pfx p rest hdec
  rcases pfx with - | ⟨a, pfx⟩ <;> simp at hdec

theorem allocateLanes_decomp (items : List RawItem) (j : Nat)
    (hj : j < (allocateLanes items).length) :
    allocateLanes items =
      (allocateLanes items).take j ++ (allocateLanes items)[j] ::
        (allocateLanes items).drop (j + 1) := by
  rw [← List.drop_eq_getElem_cons hj, List.take_append_drop]

/-- Any two entries `i < j` of an allocation whose intervals overlap get
different lanes (the later one avoided all lanes of its overlap set). -/
theorem lane_ne_of_lt (items : List RawItem) (i j : Nat)
    (hi : i < (allocateLanes items).length) (hj : j < (allocateLanes items).length)
    (hij : i < j)
    (hov : overlapP (allocateLanes items)[i] (allocateLanes items)[j]) :
    ((allocateLanes items)[i]).lane ≠ ((allocateLanes items)[j]).lane := by
  have hnot := (FirstFit_allocateLanes items (List.take j (allocateLanes items))
    (allocateLanes items)[j] (List.drop (j + 1) (allocateLanes items))
    (allocateLanes_decomp items j hj)).1
  intro heq
  refine hnot (mem_lanesOf.mpr ⟨(allocateLanes items)[i], ?_, hov, heq⟩)
  have hi' : i < (List.take j (allocateLanes items)).length := by
    rw [List.length_take]
    omega
  have hni : (List.take j (allocateLanes items))[i] = (allocateLanes items)[i] :=
    List.getElem_take _
  rw [← hni]
  exact List.getElem_mem hi'

/-- C2: for every input list, any two distinct output items whose effective
intervals overlap (`a.start < b.end_effective` and `b.start < a.end_effective`,
with `end_effective = endTime ?? start + 60 min`) are assigned different
lanes. -/
theorem allocateLanes_no_overlap (items : List RawItem) (i j : Nat)
    (hi : i < (allocateLanes items).length) (hj : j < (allocateLanes items).length)
    (hne : i ≠ j)
    (hov : overlapP (allocateLanes items)[i] (allocateLanes items)[j]) :
    ((allocateLanes items)[i]).lane ≠ ((allocateLanes items)[j]).lane := by
  rcases Nat.lt_or_ge i j with hij | hge
  · exact lane_ne_of_lt items i j hi hj hij hov
  · have hij : j < i := by omega
    have hov' : overlapP (allocateLanes items)[j] (allocateLanes items)[i] :=
      ⟨hov.2, hov.1⟩
    exact fun e => lane_ne_of_lt items j i hj hi hij hov' e.symm

/-- Witness for C2: in the cluster A(0–60), B(30–90), C(80–140), items A
and B overlap and get the distinct lanes 0 and 1. -/
theorem allocateLanes_no_overlap_witness :
    overlapP ((allocateLanes exC1).get ⟨0, by decide⟩)
        ((allocateLanes exC1).get ⟨1, by decide⟩) ∧
      ((allocateLanes exC1).get ⟨0, by decide⟩).lane ≠
        ((allocateLanes exC1).get ⟨1, by decide⟩).lane :=
  ⟨by decide,
    allocateLanes_no_overlap exC1 0 1 (by decide) (by decide) (by decide) (by decide)⟩

/-- C3: every output item's lane is the smallest natural number not used by
any earlier-placed item whose effective interval overlaps it (first fit):
no earlier overlapping item shares the lane, and every smaller lane is held
by some earlier overlapping item. -/
theorem allocateLanes_first_fit (items : List RawItem) (j : Nat)
    (hj : j < (allocateLanes items).length) :
    (∀ (i : Nat) (hi : i < (allocateLanes items).length), i < j →
        overlapP (allocateLanes items)[i] (allocateLanes items)[j] →
        ((allocateLanes items)[i]).lane ≠ ((allocateLanes items)[j]).lane) ∧
    ∀ k < ((allocateLanes items)[j]).lane,
      ∃ (i : Nat) (hi : i < (allocateLanes items).length), i < j ∧
        overlapP (allocateLanes items)[i] (allocateLanes items)[j] ∧
        ((allocateLanes items)[i]).lane = k := by
  constructor
  · intro i hi hij hov
    exact lane_ne_of_lt items i j hi hj hij hov
  · intro k hk
    have h2 := (FirstFit_allocateLanes items (List.take j (allocateLanes items))
      (allocateLanes items)[j] (List.drop (j + 1) (allocateLanes items))
      (allocateLanes_decomp items j hj)).2 k hk
    obtain ⟨q, hqmem, hqov, hqlane⟩ := mem_lanesOf.mp h2
    obtain ⟨i, hi', hqe⟩ := List.getElem_of_mem hqmem
    have hiL : i < (allocateLanes items).length := by
      have hx := hi'
      rw [List.length_take] at hx
      omega
    have hij : i < j := by
      have hx := hi'
      rw [List.length_take] at hx
      omega
    have hgl : (allocateLanes items)[i] = q := by
      rw [← hqe]
      exact (List.getElem_take _).symm
    refine ⟨i, hiL, hij, ?_, ?_⟩
    · rw [hgl]
      exact hqov
    · rw [hgl]
      exact hqlane

/-- Witness for C3: minimality at the third item C of the cluster A(0–60),
B(30–90), C(80–140): C only conflicts with B (lane 1), so it reuses lane 0. -/
theorem allocateLanes_first_fit_witness :
    (∀ (i : Nat) (hi : i < (allocateLanes exC1).length), i < 2 →
        overlapP ((allocateLanes exC1).get ⟨i, hi⟩)
          ((allocateLanes exC1).get ⟨2, by decide⟩) →
        ((allocateLanes exC1).get ⟨i, hi⟩).lane ≠
          ((allocateLanes exC1).get ⟨2, by decide⟩).lane) ∧
    ∀ k < ((allocateLanes exC1).get ⟨2, by decide⟩).lane,
      ∃ (i : Nat) (hi : i < (allocateLanes exC1).length), i < 2 ∧
        overlapP ((allocateLanes exC1).get ⟨i, hi⟩)
          ((allocateLanes exC1).get ⟨2, by decide⟩) ∧
        ((allocateLanes exC1).get ⟨i, hi⟩).lane = k :=
  allocateLanes_first_fit exC1 2 (by decide)

/-! ### Week view: timed vs. all-day task split (week-view.tsx) -/

/-- `START_HOUR = 6` (6 AM): top of the displayed window. -/
def START_HOUR : Nat := 6

/-- `END_HOUR = 23` (11 PM): last displayed hour, so the window ends 23:59. -/
def END_HOUR : Nat := 23

/-- A task as the week-view filters see it: `dueHour` is
`new Date(task.dueDate).getHours()` (an hour in 0..23), or `none` when
`task.dueDate` is null. -/
structure WTask where
  dueHour : Option Nat
deriving DecidableEq

/-- The `timedTasks` filter (week-view.tsx): no due date → false, else
`hours >= START_HOUR && hours <= END_HOUR`. Exactly these tasks are turned
into `timedItems` and passed to `allocateLanes`. -/
def isTimedTask (t : WTask) : Bool :=
  match t.dueHour with
  | none => false
  | some h => decide (START_HOUR ≤ h) && decide (h ≤ END_HOUR)

/-- The `allDayTasks` filter (week-view.tsx): no due date → true, else
`hours < START_HOUR || hours > END_HOUR`. These render in the all-day
strip. -/
def isAllDayTask (t : WTask) : Bool :=
  match t.dueHour with
  | none => true
  | some h => decide (h < START_HOUR) || decide (END_HOUR < h)

/-- C10: a task enters the lane allocator exactly when it has a due date
whose hour lies in the displayed 6:00–23:59 window (hour between 6 and 23
inclusive), and the all-day strip holds exactly the complementary tasks —
those with no due timestamp or with a due hour outside the window. -/
theorem timed_task_window (t : WTask) :
    (isTimedTask t = true ↔ ∃ h, t.dueHour = some h ∧ 6 ≤ h ∧ h ≤ 23) ∧
    isAllDayTask t = !isTimedTask t := by
  rcases t with ⟨_ | h⟩
  · simp [isTimedTask, isAllDayTask]
  · constructor
    · simp only [isTimedTask, Bool.and_eq_true, decide_eq_true_eq]
      constructor
      · rintro ⟨h1, h2⟩
        exact ⟨h, rfl, h1, h2⟩
      · rintro ⟨h2, he, h3, h4⟩
        cases he
        exact ⟨h3, h4⟩
    · simp only [isTimedTask, isAllDayTask, START_HOUR, END_HOUR]
      by_cases h1 : 6 ≤ h <;> by_cases h2 : h ≤ 23 <;>
        simp [h1, h2] <;> omega

end Batcave
